import Mathlib

/-!
Verification development for the proxy-harold repository: a shallow
embedding in Lean 4 of the request-admission and response-caching core
(`internal/ratelimit/limiter.go`, `internal/proxy/fetcher.go`,
`internal/handler`, `internal/cache`), together with theorems settling the
specified behavioural claims.

Modelling conventions:
* Go `float64` quantities (token counts, rates) are embedded as `ℚ`;
  the claims under consideration involve only exact arithmetic.
* Go `time.Time` / `time.Duration` are embedded as `ℚ` (seconds); every
  operation that reads the wall clock takes the current time explicitly.
* Go maps holding pointers are embedded as functions into `Option`,
  with in-place mutation through a pointer rendered as functional update.
* Fallible operations return `Except`/`Option`.
-/

namespace ProxyHarold

/-! Section: Token-bucket limiter (golang.org/x/time/rate, as used by limiter.go)

The repository delegates the per-bucket token arithmetic to
`golang.org/x/time/rate`.  `Limiter` below embeds the fields of
`rate.Limiter` that `Allow` touches, and `Limiter.allowAt` embeds
`Limiter.AllowN(t, 1)` = `reserveN(t, 1, 0).ok`: advance the token count by
the elapsed time, subtract one, compute the wait duration, and admit iff
`1 <= burst` and the wait duration is not positive; the limiter state is
updated only on admission. -/

structure Limiter where
  limit : ℚ
  burst : ℤ
  tokens : ℚ
  last : ℚ
deriving DecidableEq

/-- Embeds `rate.NewLimiter(r, b)`: full bucket, zero last-refill time. -/
def NewLimiter (r : ℚ) (b : ℤ) : Limiter :=
  { limit := r, burst := b, tokens := (b : ℚ), last := 0 }

/-- Embeds `Limit.durationFromTokens`: `none` stands for `InfDuration`,
returned when the limit is not positive. -/
def durationFromTokens (limit tokens : ℚ) : Option ℚ :=
  if limit ≤ 0 then none else some (tokens / limit)

/-- Whether a wait duration is `<= 0` (an infinite duration is not). -/
def waitNonPos : Option ℚ → Bool
  | none => false
  | some d => decide (d ≤ 0)

/-- Embeds `Limiter.advance`: tokens accumulated by time `t`, capped at
`burst`; a clock that appears to run backwards contributes no tokens. -/
def Limiter.advance (lim : Limiter) (t : ℚ) : ℚ :=
  let last := if t < lim.last then t else lim.last
  let tokens := lim.tokens + (t - last) * lim.limit
  if tokens > (lim.burst : ℚ) then (lim.burst : ℚ) else tokens

/-- Embeds `Limiter.AllowN(t, 1)` (via `reserveN` with
`maxFutureReserve = 0`), returning the admission decision and the
post-call limiter state. -/
def Limiter.allowAt (lim : Limiter) (t : ℚ) : Bool × Limiter :=
  let tokens := lim.advance t - 1
  let waitDuration : Option ℚ :=
    if tokens < 0 then durationFromTokens lim.limit (-tokens) else some 0
  if 1 ≤ lim.burst ∧ waitNonPos waitDuration then
    (true, { lim with last := t, tokens := tokens })
  else
    (false, lim)

/-! Section: IPRateLimiter (internal/ratelimit/limiter.go) -/

/-- Embeds the `IPRateLimiter` struct: the registry map plus the
configured rate and burst.  The `sync.RWMutex` and the cleanup channel
have no sequential content. -/
structure IPRateLimiter where
  limiters : String → Option Limiter
  rate : ℚ
  burst : ℤ

/-- Embeds `NewIPRateLimiter`: empty registry. -/
def NewIPRateLimiter (r : ℚ) (burst : ℤ) : IPRateLimiter :=
  { limiters := fun _ => none, rate := r, burst := burst }

/-- Embeds `getLimiter`: look the IP up, creating a fresh
`rate.NewLimiter(rl.rate, rl.burst)` on a miss.  Returns the limiter for
the IP together with the (possibly extended) registry state. -/
def IPRateLimiter.getLimiter (rl : IPRateLimiter) (ip : String) :
    Limiter × IPRateLimiter :=
  match rl.limiters ip with
  | some lim => (lim, rl)
  | none =>
      let lim := NewLimiter rl.rate rl.burst
      (lim, { rl with limiters := fun k => if k = ip then some lim else rl.limiters k })

/-- Embeds `IPRateLimiter.Allow(ip)` at time `t`: `getLimiter(ip).Allow()`.
The Go limiter is mutated through its pointer in the map; here the updated
bucket is written back at the same key. -/
def IPRateLimiter.Allow (rl : IPRateLimiter) (ip : String) (t : ℚ) :
    Bool × IPRateLimiter :=
  let p := rl.getLimiter ip
  let q := p.1.allowAt t
  (q.1, { p.2 with limiters := fun k => if k = ip then some q.2 else p.2.limiters k })

/-- Embeds `formatTokens` (limiter.go): for a negative count the literal
string `0`, otherwise `string(rune('0' + int(tokens)%10))` — the single
character holding the last decimal digit of the truncated count. -/
def formatTokens (tokens : ℚ) : String :=
  if tokens < 0 then "0"
  else String.mk [Char.ofNat (48 + (Int.toNat ⌊tokens⌋) % 10)]

/-- The header value described by the spec: the decimal representation of
the integer part of the remaining-token count, clamped below at 0. -/
def formatTokensSpec (tokens : ℚ) : String :=
  if tokens < 0 then "0" else Nat.repr (Int.toNat ⌊tokens⌋)

/-! Section: Go net/url parsing (modelled for Fetcher.ValidateURL)

`ValidateURL` (fetcher.go) delegates URL parsing to Go's `net/url.Parse`.
The definitions below embed the parts of `net/url` that `Parse` executes,
working over `List Char` (the claims involve ASCII inputs, where Go's
byte-level scan and a char-level scan agree): `getScheme`, the
query/fragment splitting, the opaque/relative-path analysis, authority and
host parsing with port validation, and `unescape` in its `host`, `zone`,
`user`/`password`, `path` and `fragment` modes, including the character
class `shouldEscape` uses for hosts.  Only the error behaviour and the
`Scheme` and `Host` fields feed `ValidateURL`; the `User` field keeps the
raw (pre-decoding) userinfo text. -/

def isAlphaCh (c : Char) : Bool := ('a' ≤ c && c ≤ 'z') || ('A' ≤ c && c ≤ 'Z')

def isDigitCh (c : Char) : Bool := '0' ≤ c && c ≤ '9'

def isHexCh (c : Char) : Bool :=
  isDigitCh c || ('a' ≤ c && c ≤ 'f') || ('A' ≤ c && c ≤ 'F')

/-- Embeds `unhex` from net/url. -/
def unhex (c : Char) : Nat :=
  if isDigitCh c then c.toNat - 48
  else if 'a' ≤ c && c ≤ 'f' then c.toNat - 97 + 10
  else if 'A' ≤ c && c ≤ 'F' then c.toNat - 65 + 10
  else 0

/-- Embeds `stringContainsCTLByte`. -/
def containsCTL (s : List Char) : Bool := s.any fun c => c.toNat < 32 || c.toNat = 127

/-- Embeds the scan inside `getScheme`: position of the colon ending a
well-formed scheme, `none` when the URL has no scheme, an error for a
colon in position 0. -/
def findSchemeColon : List Char → Nat → Except String (Option Nat)
  | [], _ => .ok none
  | c :: cs, i =>
    if isAlphaCh c then findSchemeColon cs (i + 1)
    else if isDigitCh c || c = '+' || c = '-' || c = '.' then
      if i = 0 then .ok none else findSchemeColon cs (i + 1)
    else if c = ':' then
      if i = 0 then .error "missing protocol scheme" else .ok (some i)
    else .ok none

/-- Embeds `getScheme`: the scheme (still in original case) and the rest. -/
def getScheme (s : List Char) : Except String (List Char × List Char) :=
  match findSchemeColon s 0 with
  | .error e => .error e
  | .ok none => .ok ([], s)
  | .ok (some i) => .ok (s.take i, s.drop (i + 1))

/-- ASCII lowering, as `strings.ToLower` acts on scheme characters. -/
def toLowerStr (s : List Char) : List Char :=
  s.map fun c => if 'A' ≤ c && c ≤ 'Z' then Char.ofNat (c.toNat + 32) else c

/-- Embeds `strings.Cut` at a one-byte separator: before, after, found. -/
def cutList : List Char → Char → List Char × List Char × Bool
  | [], _ => ([], [], false)
  | c :: cs, sep =>
    if c = sep then ([], cs, true)
    else
      let r := cutList cs sep
      (c :: r.1, r.2.1, r.2.2)

/-- Index of the last occurrence of a character (`strings.LastIndex`). -/
def lastIndexOfCh : List Char → Char → Option Nat
  | [], _ => none
  | c :: cs, ch =>
    match lastIndexOfCh cs ch with
    | some i => some (i + 1)
    | none => if c = ch then some 0 else none

/-- Embeds `strings.Index(s, "%25")`. -/
def indexOfPercent25 : List Char → Option Nat
  | '%' :: '2' :: '5' :: _ => some 0
  | _ :: rest => (indexOfPercent25 rest).map (· + 1)
  | [] => none

/-- Splits an authority at the first slash, keeping the slash on the right
side, as the authority extraction in `parse` does. -/
def spanUntilSlash : List Char → List Char × List Char
  | [] => ([], [])
  | '/' :: cs => ([], '/' :: cs)
  | c :: cs =>
    let r := spanUntilSlash cs
    (c :: r.1, r.2)

/-- The extra characters `shouldEscape` exempts in host names. -/
def hostExtraChars : List Char :=
  ['!', '$', '&', Char.ofNat 39, '(', ')', '*', '+', ',', ';', '=', ':',
   '[', ']', '<', '>', Char.ofNat 34]

/-- Embeds `shouldEscape(c, encodeHost)` (the only mode `unescape`
consults): sub-0x80 characters outside this class are invalid in a host. -/
def shouldEscapeHost (c : Char) : Bool :=
  if isAlphaCh c || isDigitCh c then false
  else if hostExtraChars.contains c then false
  else if c = '-' || c = '_' || c = '.' || c = '~' then false
  else true

/-- The encoding modes of net/url that `Parse` reaches. -/
inductive Encoding
  | path
  | host
  | zone
  | userPassword
  | queryComponent
  | fragment
deriving DecidableEq, Repr

/-- Embeds `unescape`: validates and decodes percent-escapes, rejecting
malformed escapes, ASCII escapes other than `%25` in hosts, escapes that
introduce invalid host bytes in zones, and raw invalid host characters. -/
def unescape : List Char → Encoding → Except String (List Char)
  | [], _ => .ok []
  | '%' :: rest, mode =>
    match rest with
    | c1 :: c2 :: rest2 =>
      if ¬ (isHexCh c1 && isHexCh c2) then .error "invalid URL escape"
      else if mode = .host && decide (unhex c1 < 8) && ¬ (c1 = '2' && c2 = '5') then
        .error "invalid URL escape in host"
      else if mode = .zone && ¬ (c1 = '2' && c2 = '5') &&
          ¬ (16 * unhex c1 + unhex c2 = 32) &&
          shouldEscapeHost (Char.ofNat (16 * unhex c1 + unhex c2)) then
        .error "invalid URL escape in zone"
      else do
        let r ← unescape rest2 mode
        .ok (Char.ofNat (16 * unhex c1 + unhex c2) :: r)
    | _ => .error "invalid URL escape"
  | '+' :: rest, mode => do
      let r ← unescape rest mode
      .ok ((if mode = .queryComponent then ' ' else '+') :: r)
  | c :: rest, mode =>
      if (mode = .host || mode = .zone) && c.toNat < 128 && shouldEscapeHost c then
        .error "invalid character in host"
      else do
        let r ← unescape rest mode
        .ok (c :: r)

/-- Embeds `validOptionalPort`. -/
def validOptionalPort : List Char → Bool
  | [] => true
  | ':' :: digits => digits.all fun c => '0' ≤ c && c ≤ '9'
  | _ => false

/-- The characters `validUserinfo` exempts beyond alphanumerics. -/
def userinfoExtraChars : List Char :=
  ['-', '.', '_', ':', '~', '!', '$', '&', Char.ofNat 39, '(', ')', '*',
   '+', ',', ';', '=', '%', '@']

/-- Embeds `validUserinfo`. -/
def validUserinfo (s : List Char) : Bool :=
  s.all fun c => isAlphaCh c || isDigitCh c || userinfoExtraChars.contains c

/-- Embeds `parseHost`: bracketed hosts need a closing bracket, a valid
optional port, and zone handling; bare hosts need a valid optional port
after the last colon; both are then run through host-mode `unescape`. -/
def parseHost (host : List Char) : Except String (List Char) :=
  match host with
  | '[' :: _ =>
    match lastIndexOfCh host ']' with
    | none => .error "missing close bracket in host"
    | some i =>
      if ¬ validOptionalPort (host.drop (i + 1)) then .error "invalid port after host"
      else
        match indexOfPercent25 (host.take i) with
        | some zone => do
            let host1 ← unescape (host.take zone) .host
            let host2 ← unescape ((host.take i).drop zone) .zone
            let host3 ← unescape (host.drop i) .host
            .ok (host1 ++ host2 ++ host3)
        | none => unescape host .host
  | _ =>
    match lastIndexOfCh host ':' with
    | some i =>
      if ¬ validOptionalPort (host.drop i) then .error "invalid port after host"
      else unescape host .host
    | none => unescape host .host

/-- Embeds `parseAuthority`: returns the raw userinfo text and the parsed
host; the host is parsed first, then the userinfo is validated and its
escapes checked, exactly as the Go control flow orders the failures. -/
def parseAuthority (authority : List Char) : Except String (List Char × List Char) :=
  match lastIndexOfCh authority '@' with
  | none => do
      let h ← parseHost authority
      .ok ([], h)
  | some i => do
      let h ← parseHost (authority.drop (i + 1))
      let userinfo := authority.take i
      if ¬ validUserinfo userinfo then .error "invalid userinfo"
      else if userinfo.contains ':' then do
        let p := cutList userinfo ':'
        let _ ← unescape p.1 .userPassword
        let _ ← unescape p.2.1 .userPassword
        .ok (userinfo, h)
      else do
        let _ ← unescape userinfo .userPassword
        .ok (userinfo, h)

/-- Embeds Go's `url.URL` up to the fields `Parse` fills on the paths
`ValidateURL` exercises.  The Go field `Opaque` is named `opq` here. -/
structure GoURL where
  scheme : List Char := []
  opq : List Char := []
  user : List Char := []
  host : List Char := []
  path : List Char := []
  forceQuery : Bool := false
  rawQuery : List Char := []
  fragment : List Char := []
deriving DecidableEq, Repr

/-- Embeds the query split in `parse`: a lone trailing `?` sets
`ForceQuery`, otherwise the string is cut at the first `?`. -/
def splitQuery (rest : List Char) : List Char × List Char × Bool :=
  if (match rest.getLast? with | some c => c = '?' | none => false) &&
      ¬ rest.dropLast.contains '?' then
    (rest.dropLast, [], true)
  else
    let c := cutList rest '?'
    (c.1, c.2.1, false)

/-- Embeds `parse(rawURL, viaRequest := false)` from net/url. -/
def parseGo (raw : List Char) : Except String GoURL :=
  if containsCTL raw then .error "invalid control character in URL"
  else if raw = ['*'] then .ok { path := ['*'] }
  else do
    let sr ← getScheme raw
    let scheme := toLowerStr sr.1
    let q := splitQuery sr.2
    let rest := q.1
    if ¬ List.isPrefixOf ['/'] rest ∧ scheme ≠ [] then
      .ok { scheme := scheme, opq := rest, rawQuery := q.2.1, forceQuery := q.2.2 }
    else if ¬ List.isPrefixOf ['/'] rest ∧ (cutList rest '/').1.contains ':' then
      .error "first path segment in URL cannot contain colon"
    else if (scheme ≠ [] ∨ ¬ List.isPrefixOf ['/', '/', '/'] rest) ∧
        List.isPrefixOf ['/', '/'] rest then do
      let p := spanUntilSlash (rest.drop 2)
      let au ← parseAuthority p.1
      let path ← unescape p.2 .path
      .ok { scheme := scheme, user := au.1, host := au.2, path := path,
            rawQuery := q.2.1, forceQuery := q.2.2 }
    else do
      let path ← unescape rest .path
      .ok { scheme := scheme, path := path, rawQuery := q.2.1, forceQuery := q.2.2 }

/-- Embeds `url.Parse`: cut the fragment, run `parse`, then decode and
attach a non-empty fragment. -/
def parseURLGo (raw : List Char) : Except String GoURL := do
  let c := cutList raw '#'
  let u ← parseGo c.1
  if c.2.1 = [] then .ok u
  else do
    let f ← unescape c.2.1 .fragment
    .ok { u with fragment := f }

/-- The two errors `ValidateURL` distinguishes: `ErrInvalidURL` (also when
wrapping a parse error) and `ErrInvalidScheme`. -/
inductive ValErr
  | invalidURL
  | invalidScheme
deriving DecidableEq, Repr

/-- Embeds `Fetcher.ValidateURL` (fetcher.go): empty URL and parse
failures give `ErrInvalidURL`, a scheme other than exactly http or https
gives `ErrInvalidScheme`, an empty host gives `ErrInvalidURL`, in that
order; `none` is the nil (accepting) result. -/
def ValidateURL (rawURL : String) : Option ValErr :=
  if rawURL = "" then some .invalidURL
  else
    match parseURLGo rawURL.data with
    | .error _ => some .invalidURL
    | .ok p =>
      if p.scheme ≠ "http".data ∧ p.scheme ≠ "https".data then some .invalidScheme
      else if p.host = [] then some .invalidURL
      else none

/-! Section: SHA-256 and the cache key (crypto/sha256, internal/cache)

`GenerateCacheKey` is `hex.EncodeToString(sha256.Sum256([]byte(url)))`.
SHA-256 is embedded below over byte lists, with 32-bit words as `Nat`
reduced mod `2^32`. -/

def w32 (x : Nat) : Nat := x % 4294967296

def rotr32 (n x : Nat) : Nat := x % 2 ^ n * 2 ^ (32 - n) + x / 2 ^ n

def shr32 (n x : Nat) : Nat := x / 2 ^ n

def notW32 (x : Nat) : Nat := 4294967295 - x

def shaCh (x y z : Nat) : Nat := Nat.xor (Nat.land x y) (Nat.land (notW32 x) z)

def shaMaj (x y z : Nat) : Nat :=
  Nat.xor (Nat.xor (Nat.land x y) (Nat.land x z)) (Nat.land y z)

def bigSigma0 (x : Nat) : Nat := Nat.xor (Nat.xor (rotr32 2 x) (rotr32 13 x)) (rotr32 22 x)

def bigSigma1 (x : Nat) : Nat := Nat.xor (Nat.xor (rotr32 6 x) (rotr32 11 x)) (rotr32 25 x)

def smallSigma0 (x : Nat) : Nat := Nat.xor (Nat.xor (rotr32 7 x) (rotr32 18 x)) (shr32 3 x)

def smallSigma1 (x : Nat) : Nat := Nat.xor (Nat.xor (rotr32 17 x) (rotr32 19 x)) (shr32 10 x)

def shaK : List Nat :=
  [1116352408, 1899447441, 3049323471, 3921009573,
   961987163, 1508970993, 2453635748, 2870763221,
   3624381080, 310598401, 607225278, 1426881987,
   1925078388, 2162078206, 2614888103, 3248222580,
   3835390401, 4022224774, 264347078, 604807628,
   770255983, 1249150122, 1555081692, 1996064986,
   2554220882, 2821834349, 2952996808, 3210313671,
   3336571891, 3584528711, 113926993, 338241895,
   666307205, 773529912, 1294757372, 1396182291,
   1695183700, 1986661051, 2177026350, 2456956037,
   2730485921, 2820302411, 3259730800, 3345764771,
   3516065817, 3600352804, 4094571909, 275423344,
   430227734, 506948616, 659060556, 883997877,
   958139571, 1322822218, 1537002063, 1747873779,
   1955562222, 2024104815, 2227730452, 2361852424,
   2428436474, 2756734187, 3204031479, 3329325298]

def shaH0 : List Nat :=
  [1779033703, 3144134277, 1013904242, 2773480762,
   1359893119, 2600822924, 528734635, 1541459225]

/-- Big-endian byte expansion of a number into a fixed byte count. -/
def natToBytesBE : Nat → Nat → List Nat
  | _, 0 => []
  | n, k + 1 => natToBytesBE (n / 256) k ++ [n % 256]

def bytesToWords : List Nat → List Nat
  | a :: b :: c :: d :: rest => (((a * 256 + b) * 256 + c) * 256 + d) :: bytesToWords rest
  | _ => []

/-- SHA-256 padding: `0x80`, zeros to 56 mod 64, 64-bit bit length. -/
def shaPad (msg : List Nat) : List Nat :=
  msg ++ 128 :: List.replicate ((120 - (msg.length + 1) % 64) % 64) 0 ++
    natToBytesBE (msg.length * 8) 8

def shaNextWord (w : List Nat) : Nat :=
  w32 (w.getD (w.length - 16) 0 + smallSigma0 (w.getD (w.length - 15) 0) +
       w.getD (w.length - 7) 0 + smallSigma1 (w.getD (w.length - 2) 0))

def shaExtendAll : List Nat → Nat → List Nat
  | w, 0 => w
  | w, k + 1 => shaExtendAll (w ++ [shaNextWord w]) k

def shaCompressRound (st : List Nat) (kw : Nat) : List Nat :=
  match st with
  | [a, b, c, d, e, f, g, h] =>
    let t1 := w32 (h + bigSigma1 e + shaCh e f g + kw)
    let t2 := w32 (bigSigma0 a + shaMaj a b c)
    [w32 (t1 + t2), a, b, c, w32 (d + t1), e, f, g]
  | _ => st

def shaProcessBlock (h : List Nat) (block : List Nat) : List Nat :=
  let w := shaExtendAll (bytesToWords block) 48
  let kw := (shaK.zip w).map fun p => w32 (p.1 + p.2)
  ((kw.foldl shaCompressRound h).zip h).map fun p => w32 (p.1 + p.2)

def chunks64 : List Nat → Nat → List (List Nat)
  | [], _ => []
  | l, 0 => [l]
  | l, fuel + 1 => l.take 64 :: chunks64 (l.drop 64) fuel

def sha256Bytes (msg : List Nat) : List Nat :=
  let padded := shaPad msg
  ((chunks64 padded padded.length).foldl shaProcessBlock shaH0).flatMap
    fun x => natToBytesBE x 4

def hexDigitCh (n : Nat) : Char := if n < 10 then Char.ofNat (48 + n) else Char.ofNat (87 + n)

/-- Embeds `hex.EncodeToString` (lowercase). -/
def bytesToHex (bs : List Nat) : List Char :=
  bs.flatMap fun b => [hexDigitCh (b / 16), hexDigitCh (b % 16)]

/-- Embeds `GenerateCacheKey` (internal/cache): lowercase hex encoding of
the SHA-256 digest of the exact URL bytes. -/
def GenerateCacheKey (url : String) : String :=
  String.mk (bytesToHex (sha256Bytes (url.toUTF8.toList.map UInt8.toNat)))

/-! Section: Response cache (internal/cache, BadgerDB-backed)

The badger store is embedded as a map from key strings to a stored value
and its absolute expiry time (`WithTTL(ttl)` stamps `now + ttl`); badger
treats an entry whose expiry is at or before the current time as not
found, whether or not it has been physically reclaimed.  `json.Marshal`
followed by `json.Unmarshal` is the identity on `CachedResponse` values,
so the store holds the struct itself rather than its serialized bytes. -/

structure CachedResponse where
  data : List Nat
  contentType : String
deriving DecidableEq, Repr

inductive BadgerErr
  | keyNotFound
  | ioError (msg : String)
deriving DecidableEq, Repr

structure BadgerDB where
  store : String → Option (CachedResponse × ℚ)

structure BadgerCache where
  db : BadgerDB
  ttl : ℚ

/-- Embeds the read transaction in `BadgerCache.Get`: `txn.Get` returns
`ErrKeyNotFound` for an absent key and for a logically expired entry. -/
def badgerTxnGet (db : BadgerDB) (now : ℚ) (key : String) :
    Except BadgerErr CachedResponse :=
  match db.store key with
  | none => .error .keyNotFound
  | some (v, expiresAt) => if expiresAt ≤ now then .error .keyNotFound else .ok v

/-- Embeds `BadgerCache.Get`: the result quadruple `(data, contentType,
found, err)`; `ErrKeyNotFound` is mapped to the miss `(nil, "", false,
nil)`, any other store error is passed through as `err`. -/
def BadgerCache.Get (c : BadgerCache) (now : ℚ) (url : String) :
    Option (List Nat) × String × Bool × Option BadgerErr :=
  match badgerTxnGet c.db now (GenerateCacheKey url) with
  | .error .keyNotFound => (none, "", false, none)
  | .error e => (none, "", false, some e)
  | .ok r => (some r.data, r.contentType, true, none)

/-- Embeds `BadgerCache.Set`: store under the URL key with expiry
`now + ttl` (marshalling a `CachedResponse` cannot fail). -/
def BadgerCache.Set (c : BadgerCache) (now : ℚ) (url : String)
    (data : List Nat) (contentType : String) : BadgerCache :=
  { c with db := ⟨fun k => if k = GenerateCacheKey url then
      some (⟨data, contentType⟩, now + c.ttl) else c.db.store k⟩ }

/-- Embeds `BadgerCache.Delete`. -/
def BadgerCache.Delete (c : BadgerCache) (url : String) : BadgerCache :=
  { c with db := ⟨fun k => if k = GenerateCacheKey url then none
      else c.db.store k⟩ }

/-! Section: Fetcher (internal/proxy/fetcher.go)

`Fetch` validates the URL, performs the transport call (whose outcome is a
parameter of the embedding) and applies the declared Content-Length guard.
`http.NewRequest` re-parses a URL that `ValidateURL` has already parsed
successfully, so its error branch is unreachable and not modelled.
`resp.ContentLength` is `-1` when the upstream declares no length. -/

structure HTTPResp where
  statusCode : Nat
  contentLength : Int
  contentType : String
deriving DecidableEq, Repr

structure Fetcher where
  timeoutSeconds : ℚ
  maxSize : Int
deriving DecidableEq, Repr

inductive FetchErr
  | invalidURL
  | invalidScheme
  | network (msg : String)
  | responseTooBig
deriving DecidableEq, Repr

/-- Embeds `NewFetcher`. -/
def NewFetcher (timeout : ℚ) (maxSize : Int) : Fetcher :=
  { timeoutSeconds := timeout, maxSize := maxSize }

/-- Embeds `Fetcher.Fetch` around a given `client.Do` outcome. -/
def Fetcher.Fetch (f : Fetcher) (rawURL : String)
    (doResult : Except String HTTPResp) : Except FetchErr HTTPResp :=
  match ValidateURL rawURL with
  | some .invalidURL => .error .invalidURL
  | some .invalidScheme => .error .invalidScheme
  | none =>
    match doResult with
    | .error msg => .error (.network msg)
    | .ok resp =>
      if resp.contentLength > f.maxSize then .error .responseTooBig
      else .ok resp

/-! Section: Request orchestrator (internal/handler, ProxyHandler.ServeHTTP)

The handler consumes its collaborators through interfaces; their per-call
results enter the embedding as parameters: the cache `Get` quadruple, the
`Fetch` outcome, the `io.ReadAll` outcome (consulted only after a
successful fetch), and the ignored `cache.Set` error.  The result records
the HTTP response plus whether a fetch and a cache store were attempted.
`sendError` bodies carry the message with quotes elided. -/

structure HTTPResponse where
  status : Nat
  headers : List (String × String)
  body : List Nat
deriving DecidableEq, Repr

structure HandlerResult where
  response : HTTPResponse
  fetched : Bool
  storedToCache : Bool
deriving DecidableEq, Repr

def corsHeaders : List (String × String) :=
  [("Access-Control-Allow-Origin", "*"),
   ("Access-Control-Allow-Methods", "GET, OPTIONS"),
   ("Access-Control-Allow-Headers", "*"),
   ("Access-Control-Max-Age", "86400")]

def strToBytes (s : String) : List Nat := s.toUTF8.toList.map UInt8.toNat

/-- Embeds `sendError`: JSON error body with the given status code. -/
def sendError (message : String) (code : Nat) : HTTPResponse :=
  { status := code,
    headers := corsHeaders ++ [("Content-Type", "application/json")],
    body := strToBytes ("\x7b\"error\":\"" ++ message ++ "\",\"code\":" ++
      Nat.repr code ++ "\x7d") }

inductive ReadErr
  | readFailed
deriving DecidableEq, Repr

/-- Embeds `ProxyHandler.ServeHTTP`. -/
def ServeHTTP (method targetURL : String)
    (cacheGetRes : Option (List Nat) × String × Bool × Option BadgerErr)
    (fetchRes : Except FetchErr HTTPResp)
    (readRes : Except ReadErr (List Nat))
    (_setErr : Option BadgerErr) : HandlerResult :=
  if method = "OPTIONS" then
    { response := { status := 204, headers := corsHeaders, body := [] },
      fetched := false, storedToCache := false }
  else if targetURL = "" then
    { response := sendError "missing required url parameter" 400,
      fetched := false, storedToCache := false }
  else if (ValidateURL targetURL).isSome then
    { response := sendError "invalid URL" 400,
      fetched := false, storedToCache := false }
  else if cacheGetRes.2.2.2 = none ∧ cacheGetRes.2.2.1 = true then
    { response :=
        { status := 200,
          headers := corsHeaders ++
            [("Content-Type", cacheGetRes.2.1), ("X-Cache", "HIT")],
          body := cacheGetRes.1.getD [] },
      fetched := false, storedToCache := false }
  else
    match fetchRes with
    | .error _ =>
        { response := sendError "failed to fetch URL" 502,
          fetched := true, storedToCache := false }
    | .ok resp =>
        match readRes with
        | .error _ =>
            { response := sendError "failed to read response" 502,
              fetched := true, storedToCache := false }
        | .ok body =>
            { response :=
                { status := 200,
                  headers := corsHeaders ++
                    [("Content-Type",
                      if resp.contentType = "" then "application/octet-stream"
                      else resp.contentType),
                     ("X-Cache", "MISS")],
                  body := body },
              fetched := true, storedToCache := true }

/-- Number of admitted `Allow` calls all issued at time 0, starting from a
given bucket: the state after `n` back-to-back calls. -/
def allowNAt0 (lim : Limiter) : ℕ → Limiter
  | 0 => lim
  | n + 1 => ((allowNAt0 lim n).allowAt 0).2

end ProxyHarold
namespace ProxyHarold

theorem allowAt_zero_admit (R : ℚ) (B : ℤ) (tk : ℚ) (hB : 1 ≤ B) (htk : 1 ≤ tk)
    (hcap : tk ≤ (B : ℚ)) :
    Limiter.allowAt ⟨R, B, tk, 0⟩ 0 = (true, ⟨R, B, tk - 1, 0⟩) := by
  unfold Limiter.allowAt Limiter.advance durationFromTokens waitNonPos
  norm_num
  rw [if_neg (not_lt.mpr hcap), if_neg (not_lt.mpr htk)]
  simp [hB]


theorem allowAt_zero_deny (R : ℚ) (B : ℤ) (hR : 0 < R) (hB : 0 ≤ B) :
    Limiter.allowAt ⟨R, B, 0, 0⟩ 0 = (false, ⟨R, B, 0, 0⟩) := by
  unfold Limiter.allowAt Limiter.advance durationFromTokens waitNonPos
  norm_num
  intro h
  have hBQ : ¬ ((B : ℚ) < 0) := not_lt.mpr (by exact_mod_cast hB)
  have hBZ : ¬ (B < 0) := not_lt.mpr hB
  have hRn : ¬ (R ≤ 0) := not_le.mpr hR
  simp only [hBQ, hBZ, hRn, if_false, ite_false]
  norm_num
  positivity

theorem allowAt_refill (R : ℚ) (B : ℤ) (hR : 0 < R) (hB : 1 ≤ B) :
    (Limiter.allowAt ⟨R, B, 0, 0⟩ (1 / R)).1 = true := by
  unfold Limiter.allowAt Limiter.advance durationFromTokens waitNonPos
  have hRne : R ≠ 0 := ne_of_gt hR
  norm_num
  have hRneg : ¬ (R < 0) := not_lt.mpr hR.le
  have hBQ : ¬ ((B : ℚ) < 1) := not_lt.mpr (by exact_mod_cast hB)
  simp only [hRneg, if_false, ite_false, sub_zero, inv_mul_cancel₀ hRne, hBQ]
  norm_num [hB]

theorem allowNAt0_state (R : ℚ) (B : ℤ) (hB : 1 ≤ B) :
    ∀ n : ℕ, (n : ℤ) ≤ B →
      allowNAt0 (NewLimiter R B) n = ⟨R, B, (B : ℚ) - n, 0⟩ := by
  intro n
  induction n with
  | zero => intro _; simp [allowNAt0, NewLimiter]
  | succ n ih =>
      intro hn
      have hn' : (n : ℤ) ≤ B := by omega
      have hq : ((n : ℚ)) + 1 ≤ (B : ℚ) := by exact_mod_cast hn
      have hn0 : (0 : ℚ) ≤ (n : ℚ) := Nat.cast_nonneg n
      rw [allowNAt0, ih hn',
        allowAt_zero_admit R B ((B : ℚ) - n) hB (by linarith) (by linarith)]
      push_cast
      ring_nf


/-- Claim C3: for burst B ≥ 1 and rate R > 0, an unseen identity gets a
fresh full bucket; that bucket admits each of the first B Allow calls
issued at time 0, denies the (B+1)th, and admits again at time 1/R. -/
theorem c3_fresh_bucket_admits_burst_then_refills (R : ℚ) (B : ℤ)
    (hR : 0 < R) (hB : 1 ≤ B) :
    (∀ ip, ((NewIPRateLimiter R B).getLimiter ip).1 = NewLimiter R B) ∧
    (∀ k : ℕ, (k : ℤ) < B → ((allowNAt0 (NewLimiter R B) k).allowAt 0).1 = true) ∧
    ((allowNAt0 (NewLimiter R B) B.toNat).allowAt 0).1 = false ∧
    ((allowNAt0 (NewLimiter R B) B.toNat).allowAt (1 / R)).1 = true := by
  have hB0 : 0 ≤ B := by omega
  have hst := allowNAt0_state R B hB
  have hBt : ((B.toNat : ℤ)) = B := Int.toNat_of_nonneg hB0
  have hBtQ : ((B.toNat : ℚ)) = (B : ℚ) := by exact_mod_cast hBt
  have hstB : allowNAt0 (NewLimiter R B) B.toNat = ⟨R, B, 0, 0⟩ := by
    rw [hst B.toNat (le_of_eq hBt), hBtQ]
    simp
  refine ⟨?_, ?_, ?_, ?_⟩
  · intro ip; rfl
  · intro k hk
    have hkq : ((k : ℚ)) + 1 ≤ (B : ℚ) := by exact_mod_cast hk
    have hk0 : (0 : ℚ) ≤ (k : ℚ) := Nat.cast_nonneg k
    rw [hst k (le_of_lt hk),
      allowAt_zero_admit R B ((B : ℚ) - k) hB (by linarith) (by linarith)]
  · rw [hstB, allowAt_zero_deny R B hR hB0]
  · rw [hstB]; exact allowAt_refill R B hR hB

/-- Witness for C3 at R = 2, B = 3. -/
theorem c3_witness :
    ((0:ℚ) < 2) ∧ ((1:ℤ) ≤ 3) ∧
    ((allowNAt0 (NewLimiter 2 3) 2).allowAt 0).1 = true ∧
    ((allowNAt0 (NewLimiter 2 3) (3:ℤ).toNat).allowAt 0).1 = false ∧
    ((allowNAt0 (NewLimiter 2 3) (3:ℤ).toNat).allowAt (1 / 2)).1 = true := by
  have h := c3_fresh_bucket_admits_burst_then_refills 2 3 (by norm_num) (by norm_num)
  exact ⟨by norm_num, by norm_num, h.2.1 2 (by norm_num), h.2.2.1, h.2.2.2⟩

/-- Claim C8: Allow on one identity leaves every other identity's bucket
entry (existence and state) in the registry unchanged. -/
theorem c8_allow_preserves_other_buckets (rl : IPRateLimiter) (a b : String)
    (t : ℚ) (hab : a ≠ b) :
    ((rl.Allow a t).2).limiters b = rl.limiters b := by
  have hba : ¬ (b = a) := fun h => hab h.symm
  unfold IPRateLimiter.Allow IPRateLimiter.getLimiter
  cases h : rl.limiters a with
  | some lim => simp [h, hba]
  | none => simp [h, hba]

/-- Witness for C8 at two concrete distinct identities. -/
theorem c8_witness :
    ("1.2.3.4" : String) ≠ "5.6.7.8" ∧
    (((NewIPRateLimiter 1 1).Allow "1.2.3.4" 0).2).limiters "5.6.7.8" =
      (NewIPRateLimiter 1 1).limiters "5.6.7.8" :=
  ⟨by decide,
   c8_allow_preserves_other_buckets (NewIPRateLimiter 1 1) "1.2.3.4" "5.6.7.8" 0 (by decide)⟩

/-- Claim C1 (code-bug evaluation): at 12 remaining tokens the code's
formatTokens produces the single character 2 — only the last decimal
digit of the truncated count — whereas the header value the claim and
spec describe is the full decimal representation 12. -/
theorem c1_formatTokens_last_digit_bug :
    formatTokens 12 = "2" ∧ formatTokensSpec 12 = "12" ∧
    formatTokens 12 ≠ formatTokensSpec 12 :=
  ⟨by decide, by decide, by decide⟩


/-- Claim C2: ValidateURL accepts exactly the non-empty URLs that parse
successfully with (parsed) scheme http or https and a non-empty host;
InvalidScheme is returned exactly on scheme-rule failures of parsed URLs
and InvalidURL exactly on the other failures, respecting the check
order; the listed example URLs are rejected and accepted as stated. -/
theorem c2_ValidateURL_characterization :
    (∀ u : String, ValidateURL u = none ↔
      u ≠ "" ∧ ∃ p, parseURLGo u.data = .ok p ∧
        (p.scheme = "http".data ∨ p.scheme = "https".data) ∧ p.host ≠ []) ∧
    (∀ u : String, ValidateURL u = some .invalidScheme ↔
      u ≠ "" ∧ ∃ p, parseURLGo u.data = .ok p ∧
        ¬ (p.scheme = "http".data ∨ p.scheme = "https".data)) ∧
    (∀ u : String, ValidateURL u = some .invalidURL ↔
      (u = "" ∨ (∃ e, parseURLGo u.data = .error e) ∨
       ∃ p, parseURLGo u.data = .ok p ∧
         (p.scheme = "http".data ∨ p.scheme = "https".data) ∧ p.host = [])) ∧
    ValidateURL "" = some .invalidURL ∧
    ValidateURL "ftp://host" = some .invalidScheme ∧
    ValidateURL "javascript:alert(1)" = some .invalidScheme ∧
    ValidateURL "data:text/html,..." = some .invalidScheme ∧
    ValidateURL "example.com" = some .invalidScheme ∧
    ValidateURL "/relative/path" = some .invalidScheme ∧
    ValidateURL "http://example.com" = none ∧
    ValidateURL "https://example.com" = none := by
  have key : ∀ u : String, u ≠ "" →
      (∀ e, parseURLGo u.data = .error e →
        ValidateURL u = some .invalidURL) ∧
      (∀ p, parseURLGo u.data = .ok p →
        ValidateURL u =
          (if p.scheme ≠ "http".data ∧ p.scheme ≠ "https".data then some .invalidScheme
           else if p.host = [] then some .invalidURL else none)) := by
    intro u hu
    constructor
    · intro e he; unfold ValidateURL; rw [if_neg hu, he]
    · intro p hp; unfold ValidateURL; rw [if_neg hu, hp]
  refine ⟨?_, ?_, ?_, by decide, by decide, by decide, by decide, by decide,
    by decide, by decide, by decide⟩
  · intro u
    by_cases hu : u = ""
    · simp [hu, ValidateURL]
    · cases hp : parseURLGo u.data with
      | error e =>
          rw [(key u hu).1 e hp]
          simp [hu, hp]
      | ok p =>
          rw [(key u hu).2 p hp]
          by_cases hs : p.scheme ≠ "http".data ∧ p.scheme ≠ "https".data
          · rw [if_pos hs]
            simp [hu, hp]
            all_goals tauto
          · rw [if_neg hs]
            by_cases hh : p.host = []
            · rw [if_pos hh]
              simp [hu, hp, hh]
            · rw [if_neg hh]
              simp [hu, hp, hh]
              all_goals tauto
  · intro u
    by_cases hu : u = ""
    · simp [hu, ValidateURL]
    · cases hp : parseURLGo u.data with
      | error e =>
          rw [(key u hu).1 e hp]
          simp [hu, hp]
      | ok p =>
          rw [(key u hu).2 p hp]
          by_cases hs : p.scheme ≠ "http".data ∧ p.scheme ≠ "https".data
          · rw [if_pos hs]
            simp [hu, hp]
            all_goals tauto
          · rw [if_neg hs]
            by_cases hh : p.host = []
            · rw [if_pos hh]
              simp [hu, hp, hh]
              all_goals tauto
            · rw [if_neg hh]
              simp [hu, hp, hh]
              all_goals tauto
  · intro u
    by_cases hu : u = ""
    · simp [hu, ValidateURL]
    · cases hp : parseURLGo u.data with
      | error e =>
          rw [(key u hu).1 e hp]
          simp [hu, hp]
      | ok p =>
          rw [(key u hu).2 p hp]
          by_cases hs : p.scheme ≠ "http".data ∧ p.scheme ≠ "https".data
          · rw [if_pos hs]
            simp [hu, hp]
            all_goals tauto
          · rw [if_neg hs]
            by_cases hh : p.host = []
            · rw [if_pos hh]
              simp [hu, hp, hh]
              all_goals tauto
            · rw [if_neg hh]
              simp [hu, hp, hh]

/-- Witness for C2 at the accepted URL. -/
theorem c2_witness :
    ("http://example.com" : String) ≠ "" ∧ ∃ p,
      parseURLGo ("http://example.com" : String).data = .ok p ∧
      (p.scheme = "http".data ∨ p.scheme = "https".data) ∧ p.host ≠ [] :=
  (c2_ValidateURL_characterization.1 "http://example.com").mp (by decide)


/-- Claim C4: with a positive TTL, Set(url, body, ct) followed
immediately by Get(url) returns (body, ct, found) with a nil error, and
Delete(url) followed by Get(url) is a miss. -/
theorem c4_cache_roundtrip (c : BadgerCache) (now : ℚ) (url : String)
    (data : List Nat) (ct : String) (httl : 0 < c.ttl) :
    BadgerCache.Get (BadgerCache.Set c now url data ct) now url
      = (some data, ct, true, none) ∧
    BadgerCache.Get (BadgerCache.Delete (BadgerCache.Set c now url data ct) url) now url
      = (none, "", false, none) := by
  have h : ¬ (now + c.ttl ≤ now) := by linarith
  unfold BadgerCache.Get BadgerCache.Set BadgerCache.Delete badgerTxnGet
  simp [h]

/-- Witness for C4 on a concrete empty cache with TTL 3600. -/
theorem c4_witness :
    (0 : ℚ) < (3600 : ℚ) ∧
    BadgerCache.Get
        (BadgerCache.Set ⟨⟨fun _ => none⟩, 3600⟩ 0 "http://example.com" [104, 105] "text/plain")
        0 "http://example.com"
      = (some [104, 105], "text/plain", true, none) ∧
    BadgerCache.Get
        (BadgerCache.Delete
          (BadgerCache.Set ⟨⟨fun _ => none⟩, 3600⟩ 0 "http://example.com" [104, 105] "text/plain")
          "http://example.com")
        0 "http://example.com"
      = (none, "", false, none) := by
  have h := c4_cache_roundtrip ⟨⟨fun _ => none⟩, 3600⟩ 0 "http://example.com"
    [104, 105] "text/plain" (by norm_num)
  exact ⟨by norm_num, h.1, h.2⟩

/-- Claim C7: an entry stored at time `now` with TTL `ttl` answers any
Get strictly after `now + ttl` as a miss, although the entry is still
physically present in the store. -/
theorem c7_expired_get_is_miss (c : BadgerCache) (now t : ℚ) (url : String)
    (data : List Nat) (ct : String) (ht : now + c.ttl < t) :
    BadgerCache.Get (BadgerCache.Set c now url data ct) t url
      = (none, "", false, none) := by
  have h : now + c.ttl ≤ t := le_of_lt ht
  unfold BadgerCache.Get BadgerCache.Set badgerTxnGet
  simp [h]

/-- Witness for C7: store at time 0 with TTL 3600, read at 3601. -/
theorem c7_witness :
    (0 : ℚ) + (3600 : ℚ) < (3601 : ℚ) ∧
    BadgerCache.Get
        (BadgerCache.Set ⟨⟨fun _ => none⟩, 3600⟩ 0 "http://example.com" [104] "text/plain")
        3601 "http://example.com"
      = (none, "", false, none) := by
  refine ⟨by norm_num, ?_⟩
  have h := c7_expired_get_is_miss ⟨⟨fun _ => none⟩, 3600⟩ 0 3601 "http://example.com"
    [104] "text/plain" (by norm_num)
  exact h

/-- Claim C10: when the key is absent or only a logically expired entry
exists, Get returns (nil, empty content type, found=false, err=nil) —
the key-not-found condition maps to a nil error. -/
theorem c10_keyNotFound_is_nil_error (c : BadgerCache) (now : ℚ) (url : String)
    (h : c.db.store (GenerateCacheKey url) = none ∨
      ∃ v e, c.db.store (GenerateCacheKey url) = some (v, e) ∧ e ≤ now) :
    BadgerCache.Get c now url = (none, "", false, none) := by
  unfold BadgerCache.Get badgerTxnGet
  rcases h with h | ⟨v, e, h, he⟩
  · simp [h]
  · simp [h, he]

/-- Witness for C10 on an empty store. -/
theorem c10_witness :
    ((⟨⟨fun _ => none⟩, 3600⟩ : BadgerCache).db.store
        (GenerateCacheKey "http://example.com") = none ∨
      ∃ v e, (⟨⟨fun _ => none⟩, 3600⟩ : BadgerCache).db.store
        (GenerateCacheKey "http://example.com") = some (v, e) ∧ e ≤ (0 : ℚ)) ∧
    BadgerCache.Get (⟨⟨fun _ => none⟩, 3600⟩ : BadgerCache) 0 "http://example.com"
      = (none, "", false, none) :=
  ⟨Or.inl rfl,
   c10_keyNotFound_is_nil_error ⟨⟨fun _ => none⟩, 3600⟩ 0 "http://example.com" (Or.inl rfl)⟩

/-- When the fetch step fails, the handler result does not depend on the
body-read outcome: the body of a rejected response is never consumed. -/
theorem serveHTTP_fetch_error_ignores_read (m u : String)
    (cg : Option (List Nat) × String × Bool × Option BadgerErr)
    (e : FetchErr) (r1 r2 : Except ReadErr (List Nat)) (se : Option BadgerErr) :
    ServeHTTP m u cg (.error e) r1 se = ServeHTTP m u cg (.error e) r2 se := rfl

/-- Claim C5: a response whose declared Content-Length exceeds the
configured maximum makes Fetch return the ResponseTooBig error, and the
request outcome is then independent of any body-read result — the body
is not read. -/
theorem c5_oversized_content_length_rejected (f : Fetcher) (url : String)
    (resp : HTTPResp) (hv : ValidateURL url = none)
    (hlen : resp.contentLength > f.maxSize) :
    Fetcher.Fetch f url (.ok resp) = .error .responseTooBig ∧
    ∀ m cg r1 r2 se,
      ServeHTTP m url cg (Fetcher.Fetch f url (.ok resp)) r1 se =
        ServeHTTP m url cg (Fetcher.Fetch f url (.ok resp)) r2 se := by
  have hf : Fetcher.Fetch f url (.ok resp) = .error .responseTooBig := by
    unfold Fetcher.Fetch
    rw [hv]
    simp [hlen]
  refine ⟨hf, fun m cg r1 r2 se => ?_⟩
  rw [hf]
  exact serveHTTP_fetch_error_ignores_read m url cg _ r1 r2 se

/-- Witness for C5: max size 1024, declared length 2048. -/
theorem c5_witness :
    ValidateURL "http://example.com" = none ∧
    ((⟨200, 2048, "text/plain"⟩ : HTTPResp).contentLength > (NewFetcher 10 1024).maxSize) ∧
    Fetcher.Fetch (NewFetcher 10 1024) "http://example.com"
        (.ok ⟨200, 2048, "text/plain"⟩)
      = .error .responseTooBig :=
  ⟨by decide, by decide,
   (c5_oversized_content_length_rejected (NewFetcher 10 1024) "http://example.com"
      ⟨200, 2048, "text/plain"⟩ (by decide) (by decide)).1⟩

/-- Claim C9: the bound is strict — a declared Content-Length equal to
the maximum is accepted, and an absent Content-Length (-1) is never
rejected by this check for a non-negative configured maximum. -/
theorem c9_size_bound_strict (f : Fetcher) (url : String) (resp : HTTPResp)
    (hv : ValidateURL url = none) :
    (resp.contentLength = f.maxSize →
      Fetcher.Fetch f url (.ok resp) = .ok resp) ∧
    (resp.contentLength = -1 → 0 ≤ f.maxSize →
      Fetcher.Fetch f url (.ok resp) = .ok resp) := by
  have hno : resp.contentLength ≤ f.maxSize →
      Fetcher.Fetch f url (.ok resp) = .ok resp := by
    intro hle
    have hgt : ¬ resp.contentLength > f.maxSize := not_lt.mpr hle
    simp [Fetcher.Fetch, hv, hgt]
  constructor
  · intro h
    exact hno (le_of_eq h)
  · intro h h0
    exact hno (by omega)

/-- Witness for C9 at max size 1024 with lengths 1024 and -1. -/
theorem c9_witness :
    ValidateURL "http://example.com" = none ∧
    ((⟨200, 1024, "a"⟩ : HTTPResp).contentLength = (NewFetcher 10 1024).maxSize) ∧
    ((-1 : Int) = -1 ∧ (0 : Int) ≤ (NewFetcher 10 1024).maxSize) ∧
    Fetcher.Fetch (NewFetcher 10 1024) "http://example.com" (.ok ⟨200, 1024, "a"⟩)
      = .ok ⟨200, 1024, "a"⟩ ∧
    Fetcher.Fetch (NewFetcher 10 1024) "http://example.com" (.ok ⟨200, -1, "a"⟩)
      = .ok ⟨200, -1, "a"⟩ :=
  ⟨by decide, by decide, ⟨rfl, by decide⟩,
   (c9_size_bound_strict (NewFetcher 10 1024) "http://example.com"
      ⟨200, 1024, "a"⟩ (by decide)).1 (by decide),
   (c9_size_bound_strict (NewFetcher 10 1024) "http://example.com"
      ⟨200, -1, "a"⟩ (by decide)).2 (by decide) (by decide)⟩

/-- Claim C6: a cache Get error makes the request proceed to an upstream
fetch, and on a non-hit with a successful fetch the response is a 200
with the fresh body and the MISS marker regardless of the cache Set
error, which the handler ignores. -/
theorem c6_cache_errors_never_surfaced (m url : String)
    (hm : m ≠ "OPTIONS") (hu : url ≠ "") (hv : ValidateURL url = none) :
    (∀ d ct found e fetchRes readRes se,
      (ServeHTTP m url (d, ct, found, some e) fetchRes readRes se).fetched = true) ∧
    (∀ d ct found cerr resp body se,
      ¬ (cerr = (none : Option BadgerErr) ∧ found = true) →
      (ServeHTTP m url (d, ct, found, cerr) (.ok resp) (.ok body) se).storedToCache
        = true ∧
      ServeHTTP m url (d, ct, found, cerr) (.ok resp) (.ok body) se =
        ServeHTTP m url (d, ct, found, cerr) (.ok resp) (.ok body) none ∧
      (ServeHTTP m url (d, ct, found, cerr) (.ok resp) (.ok body) se).response.status
        = 200 ∧
      ("X-Cache", "MISS") ∈
        (ServeHTTP m url (d, ct, found, cerr) (.ok resp) (.ok body) se).response.headers ∧
      (ServeHTTP m url (d, ct, found, cerr) (.ok resp) (.ok body) se).response.body
        = body) := by
  constructor
  · intro d ct found e fetchRes readRes se
    unfold ServeHTTP
    rw [if_neg hm, if_neg hu, hv]
    simp only [Option.isSome_none, Bool.false_eq_true, if_false]
    rw [if_neg (by simp : ¬ ((some e : Option BadgerErr) = none ∧ found = true))]
    cases fetchRes with
    | error _ => rfl
    | ok resp => cases readRes with
      | error _ => rfl
      | ok body => rfl
  · intro d ct found cerr resp body se hmiss
    unfold ServeHTTP
    rw [if_neg hm, if_neg hu, hv]
    simp only [Option.isSome_none, Bool.false_eq_true, if_false]
    rw [if_neg hmiss]
    refine ⟨rfl, trivial, rfl, ?_, rfl⟩
    simp

/-- Witness for C6 with a concrete disk-failure cache error. -/
theorem c6_witness :
    ("GET" : String) ≠ "OPTIONS" ∧ ("http://example.com" : String) ≠ "" ∧
    ValidateURL "http://example.com" = none ∧
    (ServeHTTP "GET" "http://example.com" (none, "", false, some (.ioError "disk failure"))
        (.ok ⟨200, 5, "text/plain"⟩) (.ok [104]) none).fetched = true ∧
    (ServeHTTP "GET" "http://example.com" (none, "", false, none)
        (.ok ⟨200, 5, "text/plain"⟩) (.ok [104])
        (some (.ioError "disk failure"))).response.status = 200 := by
  have h := c6_cache_errors_never_surfaced "GET" "http://example.com"
    (by decide) (by decide) (by decide)
  refine ⟨by decide, by decide, by decide, ?_, ?_⟩
  · exact h.1 none "" false (.ioError "disk failure") (.ok ⟨200, 5, "text/plain"⟩)
      (.ok [104]) none
  · exact (h.2 none "" false none ⟨200, 5, "text/plain"⟩ [104]
      (some (.ioError "disk failure")) (by simp)).2.2.1

end ProxyHarold
